import Mathlib

/-!
# Verification of the zcache in-memory TTL cache

A shallow embedding of the zcache key/value store (`zcache.go`, with the
coalescing gate from `once.go`).  The Go map `map[K]Item[V]` is modelled as an
association list; `time.Now().UnixNano()` is an explicit `now : Int` parameter
passed to each operation at the instant the source reads the clock; a
registered eviction callback `onEvicted` is modelled by a `Bool` (whether it is
non-nil) together with, for each mutating operation, the list of `(key, value)`
pairs the operation passes to the callback after releasing the lock.
-/

/-- `NoExpiration` indicates a cache item never expires (`time.Duration = -1`). -/
def NoExpiration : Int := -1

/-- `DefaultExpiration` indicates to use the cache default expiration time
(`time.Duration = 0`). -/
def DefaultExpiration : Int := 0

/-- Item stored in the cache; it holds the value and the expiration time as a
nanosecond timestamp (`Expiration int64`; `0` means no expiration). -/
structure Item (V : Type) where
  Object : V
  Expiration : Int
deriving DecidableEq, Repr

/-- The inlined expiration check repeated across `zcache.go`
(`item.Expiration > 0 && time.Now().UnixNano() > item.Expiration`). -/
def isExpired {V : Type} (item : Item V) (now : Int) : Bool :=
  decide (item.Expiration > 0 ∧ now > item.Expiration)

/-- The cache state: the default expiration duration, the items map
(association list standing for `map[K]Item[V]`), and whether an eviction
callback is registered (`onEvicted != nil`). -/
structure Cache (K V : Type) where
  defaultExpiration : Int
  items : List (K × Item V)
  onEvicted : Bool
deriving DecidableEq, Repr

variable {K V : Type} [DecidableEq K]

/-- Go map read `item, ok := c.items[k]`. -/
def lookupItem (xs : List (K × Item V)) (k : K) : Option (Item V) :=
  match xs with
  | [] => none
  | (k₁, it) :: rest => if k₁ = k then some it else lookupItem rest k

/-- Go map removal `delete(c.items, k)`. -/
def eraseItem (xs : List (K × Item V)) (k : K) : List (K × Item V) :=
  xs.filter (fun p => !decide (p.1 = k))

/-- Go map write `c.items[k] = item`. -/
def insertItem (xs : List (K × Item V)) (k : K) (it : Item V) : List (K × Item V) :=
  (k, it) :: eraseItem xs k

/-- The callback invocations produced by one `v, evicted := c.delete(k)`
result: `if evicted { c.onEvicted(k, v) }`. -/
def evList (k : K) (ov : Option V) : List (K × V) :=
  match ov with
  | some v => [(k, v)]
  | none => []

/-- `func (c *cache[K, V]) set(k K, v V, d time.Duration)`: resolve the
default-expiration sentinel, compute an absolute expiry only for a strictly
positive duration, and upsert. -/
def Cache.set (c : Cache K V) (k : K) (v : V) (d now : Int) : Cache K V :=
  let d := if d = DefaultExpiration then c.defaultExpiration else d
  let e : Int := if d > 0 then now + d else 0
  { c with items := insertItem c.items k (Item.mk v e) }

/-- `SetWithExpire` ("inlining" of `set` in the source; identical behaviour).
It never touches the eviction callback, so its eviction list is `[]`. -/
def Cache.SetWithExpire (c : Cache K V) (k : K) (v : V) (d now : Int) :
    Cache K V × List (K × V) :=
  (c.set k v d now, [])

/-- `func (c *cache[K, V]) get(k K) (V, bool)`: miss on absent key and on an
entry failing the inlined expiration check. -/
def Cache.get (c : Cache K V) (k : K) (now : Int) : Option V :=
  match lookupItem c.items k with
  | none => none
  | some item => if isExpired item now then none else some item.Object

/-- `Get` ("inlining" of `get` and `Expired` in the source; same behaviour as
the internal `get`). -/
def Cache.Get (c : Cache K V) (k : K) (now : Int) : Option V :=
  match lookupItem c.items k with
  | none => none
  | some item => if isExpired item now then none else some item.Object

/-- `GetStale`: returns the value even if expired, plus the expired flag;
`none` stands for the `(zero, false, false)` miss. -/
def Cache.GetStale (c : Cache K V) (k : K) (now : Int) : Option (V × Bool) :=
  match lookupItem c.items k with
  | none => none
  | some item => some (item.Object, isExpired item now)

/-- `TouchWithExpire`: resolve the sentinel, then — for any key present in the
map, with no expiration check — overwrite the expiry with
`time.Now().Add(d).UnixNano() = now + d` and return the value. -/
def Cache.TouchWithExpire (c : Cache K V) (k : K) (d now : Int) :
    Cache K V × Option V × List (K × V) :=
  let d := if d = DefaultExpiration then c.defaultExpiration else d
  match lookupItem c.items k with
  | none => (c, none, [])
  | some item =>
    let item := { item with Expiration := now + d }
    ({ c with items := insertItem c.items k item }, some item.Object, [])

/-- `AddWithExpire`: `get` under the lock, fail (`error`, modelled as the
`false` flag) when it hits, otherwise `set`. -/
def Cache.AddWithExpire (c : Cache K V) (k : K) (v : V) (d now : Int) :
    Cache K V × Bool × List (K × V) :=
  match c.get k now with
  | some _ => (c, false, [])
  | none => (c.set k v d now, true, [])

/-- `ReplaceWithExpire`: `get` under the lock, fail when it misses, otherwise
`set`. -/
def Cache.ReplaceWithExpire (c : Cache K V) (k : K) (v : V) (d now : Int) :
    Cache K V × Bool × List (K × V) :=
  match c.get k now with
  | none => (c, false, [])
  | some _ => (c.set k v d now, true, [])

/-- `Modify`: for a present, unexpired entry replace the value with
`f(item.Object)` in place and return the new value; otherwise do nothing
(`false`, the function is not invoked). -/
def Cache.Modify (c : Cache K V) (k : K) (f : V → V) (now : Int) :
    Cache K V × Option V × List (K × V) :=
  match lookupItem c.items k with
  | none => (c, none, [])
  | some item =>
    if isExpired item now then (c, none, [])
    else
      let item := { item with Object := f item.Object }
      ({ c with items := insertItem c.items k item }, some item.Object, [])

/-- `func (c *cache[K, V]) delete(k K) (V, bool)`: when a callback is
registered and the key is present, remove it and report the removed value;
in every other case remove (a no-op on an absent key) and report nothing. -/
def Cache.delete (c : Cache K V) (k : K) : Cache K V × Option V :=
  if c.onEvicted then
    match lookupItem c.items k with
    | some v => ({ c with items := eraseItem c.items k }, some v.Object)
    | none => ({ c with items := eraseItem c.items k }, none)
  else
    ({ c with items := eraseItem c.items k }, none)

/-- `Delete`: internal `delete` under the lock, then the callback outside it. -/
def Cache.Delete (c : Cache K V) (k : K) : Cache K V × List (K × V) :=
  let r := c.delete k
  (r.1, evList k r.2)

/-- `Pop`: read the entry, return a miss (leaving the map untouched) on absent
or expired, otherwise delete and fire the callback. -/
def Cache.Pop (c : Cache K V) (k : K) (now : Int) :
    Cache K V × Option V × List (K × V) :=
  match lookupItem c.items k with
  | none => (c, none, [])
  | some item =>
    if isExpired item now then (c, none, [])
    else
      let r := c.delete k
      (r.1, some item.Object, evList k r.2)

/-- `Rename`: fail on absent or expired source; otherwise remove the source
binding and overwrite the destination with the same item. No callback. -/
def Cache.Rename (c : Cache K V) (src dst : K) (now : Int) :
    Cache K V × Bool × List (K × V) :=
  match lookupItem c.items src with
  | none => (c, false, [])
  | some item =>
    if isExpired item now then (c, false, [])
    else
      ({ c with items := insertItem (eraseItem c.items src) dst item }, true, [])

/-- `Reset`: replace the map with an empty one, without the callback. -/
def Cache.Reset (c : Cache K V) : Cache K V × List (K × V) :=
  ({ c with items := [] }, [])

/-- One step of the `DeleteExpired` loop body: on an expired entry run
`c.delete` and collect the callback invocation it reports. -/
def deleteExpiredStep (now : Int) (acc : Cache K V × List (K × V))
    (p : K × Item V) : Cache K V × List (K × V) :=
  if p.2.Expiration > 0 ∧ now > p.2.Expiration then
    let r := acc.1.delete p.1
    (r.1, acc.2 ++ evList p.1 r.2)
  else acc

/-- `DeleteExpired`: a single clock read, then a scan deleting every expired
entry, with the collected callbacks fired after the lock is released. -/
def Cache.DeleteExpired (c : Cache K V) (now : Int) : Cache K V × List (K × V) :=
  c.items.foldl (deleteExpiredStep now) (c, [])

/-- `DeleteAll`: swap in an empty map, return the old one, and fire the
callback for every former entry when one is registered. -/
def Cache.DeleteAll (c : Cache K V) :
    Cache K V × List (K × Item V) × List (K × V) :=
  ({ c with items := [] }, c.items,
    if c.onEvicted then c.items.map (fun p => (p.1, p.2.Object)) else [])

/-- The `DeleteFunc` loop: for each entry ask the filter for `(del, stop)`,
on `del` record a copy and run `c.delete`, on `stop` break. -/
def deleteFuncAux (f : K → Item V → Bool × Bool) :
    List (K × Item V) → Cache K V → List (K × Item V) →
    Cache K V × List (K × Item V)
  | [], c, m => (c, m.reverse)
  | (k, v) :: rest, c, m =>
    let r := f k v
    let c₁ := if r.1 then (c.delete k).1 else c
    let m₁ := if r.1 then (k, Item.mk v.Object v.Expiration) :: m else m
    if r.2 then (c₁, m₁.reverse) else deleteFuncAux f rest c₁ m₁

/-- `DeleteFunc`: run the filter loop under the lock, then fire the callback
for every removed entry when one is registered.  (The loop never changes
`onEvicted`, which the source reads after releasing the lock.) -/
def Cache.DeleteFunc (c : Cache K V) (f : K → Item V → Bool × Bool) :
    Cache K V × List (K × Item V) × List (K × V) :=
  let r := deleteFuncAux f c.items c []
  (r.1, r.2, if c.onEvicted then r.2.map (fun p => (p.1, p.2.Object)) else [])

/-- `newCache`: a default expiration of `0` is normalized to `-1` (never). -/
def newCache (de : Int) (m : List (K × Item V)) : Cache K V :=
  { defaultExpiration := if de = 0 then -1 else de, items := m, onEvicted := false }

/-- The coalescing gate of `once.go`: an action runs at most once per key;
`done` holds the keys whose action has completed (the mutex and the unused
`forgotten` field are omitted). -/
structure Once (K : Type) where
  done : List K
deriving DecidableEq, Repr

/-- `once.Do(key, f)`: skip `f` when the key is already done, otherwise run
`f` (its effect on an explicit state `s`) and mark the key done when it
returns.  The `Bool` tells whether `f` ran. -/
def Once.Do {σ : Type} (o : Once K) (key : K) (f : σ → σ) (s : σ) :
    Once K × σ × Bool :=
  if key ∈ o.done then (o, s, false)
  else ({ done := key :: o.done }, f s, true)

/-- `once.Forget(key)`: `delete(o.done, key)`. -/
def Once.Forget (o : Once K) (key : K) : Once K :=
  { done := o.done.filter (fun x => !decide (x = key)) }

/-- Modelled from the spec (claim C3's reference point, not source code): the
sequential composition "Get(k) followed by Delete(k)" that `Pop` is claimed
to be equivalent to. -/
def GetThenDelete (c : Cache K V) (k : K) (now : Int) :
    Cache K V × Option V × List (K × V) :=
  let v := c.Get k now
  let r := c.Delete k
  (r.1, v, r.2)

/-! ## Map lemmas -/

theorem lookup_erase_self (xs : List (K × Item V)) (k : K) :
    lookupItem (eraseItem xs k) k = none := by
  induction xs with
  | nil => rfl
  | cons p rest ih =>
    rcases p with ⟨k₁, it⟩
    by_cases h : k₁ = k
    · simpa [eraseItem, List.filter_cons, h] using ih
    · simpa [eraseItem, List.filter_cons, h, lookupItem] using ih

theorem lookup_erase_ne (xs : List (K × Item V)) {k k' : K} (h : k' ≠ k) :
    lookupItem (eraseItem xs k) k' = lookupItem xs k' := by
  induction xs with
  | nil => rfl
  | cons p rest ih =>
    rcases p with ⟨k₁, it⟩
    by_cases h1 : k₁ = k
    · subst h1
      simp [eraseItem, List.filter_cons, lookupItem, Ne.symm h] at *
      exact ih
    · by_cases h2 : k₁ = k'
      · subst h2
        simp [eraseItem, List.filter_cons, h1, lookupItem]
      · simp [eraseItem, List.filter_cons, h1, lookupItem, h2] at *
        exact ih

theorem erase_of_lookup_none (xs : List (K × Item V)) (k : K)
    (h : lookupItem xs k = none) : eraseItem xs k = xs := by
  induction xs with
  | nil => rfl
  | cons p rest ih =>
    rcases p with ⟨k₁, it⟩
    by_cases h1 : k₁ = k
    · simp [lookupItem, h1] at h
    · unfold lookupItem at h
      rw [if_neg h1] at h
      simp [eraseItem, List.filter_cons, h1] at *
      exact ih h

theorem lookup_insert_self (xs : List (K × Item V)) (k : K) (it : Item V) :
    lookupItem (insertItem xs k it) k = some it := by
  simp [insertItem, lookupItem]

theorem lookup_insert_ne (xs : List (K × Item V)) {k k' : K} (it : Item V)
    (h : k' ≠ k) :
    lookupItem (insertItem xs k it) k' = lookupItem xs k' := by
  have h0 : lookupItem (insertItem xs k it) k'
      = if k = k' then some it else lookupItem (eraseItem xs k) k' := rfl
  rw [h0, if_neg (Ne.symm h), lookup_erase_ne xs h]

theorem delete_onEvicted (c : Cache K V) (k : K) :
    (c.delete k).1.onEvicted = c.onEvicted := by
  by_cases hc : c.onEvicted
  · simp only [Cache.delete, hc, if_true]
    cases lookupItem c.items k <;> simp
  · simp [Cache.delete, hc]

theorem delete_of_not_onEvicted (c : Cache K V) (k : K) (h : c.onEvicted = false) :
    c.delete k = ({ c with items := eraseItem c.items k }, none) := by
  simp [Cache.delete, h]

theorem deleteExpired_foldl_no_evict (now : Int) (xs : List (K × Item V))
    (c : Cache K V) (acc : List (K × V)) (h : c.onEvicted = false) :
    (xs.foldl (deleteExpiredStep now) (c, acc)).2 = acc ∧
    (xs.foldl (deleteExpiredStep now) (c, acc)).1.onEvicted = false := by
  induction xs generalizing c acc with
  | nil => exact ⟨rfl, h⟩
  | cons p rest ih =>
    simp only [List.foldl_cons]
    by_cases hp : p.2.Expiration > 0 ∧ now > p.2.Expiration
    · rw [show deleteExpiredStep now (c, acc) p
          = ({ c with items := eraseItem c.items p.1 }, acc) by
        simp [deleteExpiredStep, hp, delete_of_not_onEvicted c p.1 h, evList]]
      exact ih _ _ h
    · rw [show deleteExpiredStep now (c, acc) p = (c, acc) by
        simp [deleteExpiredStep, hp]]
      exact ih _ _ h

/-! ## Claims -/

/-- C6: for every present entry, every lookup treats it as expired exactly when
its expiration timestamp is strictly positive and `now` is strictly greater
than it; in particular at `now` equal to the expiration timestamp `Get`,
`GetStale`'s expired flag, and the internal `get` used by Add/Replace all
still treat the entry as valid. -/
theorem C6_strict_expiration (c : Cache K V) (k : K) (it : Item V) (now : Int)
    (h : lookupItem c.items k = some it) :
    (c.Get k now = none ↔ (it.Expiration > 0 ∧ now > it.Expiration)) ∧
    (c.GetStale k now = some (it.Object, isExpired it now)) ∧
    (isExpired it now = decide (it.Expiration > 0 ∧ now > it.Expiration)) ∧
    (c.get k now = none ↔ (it.Expiration > 0 ∧ now > it.Expiration)) ∧
    (now = it.Expiration →
      c.Get k now = some it.Object ∧
      c.GetStale k now = some (it.Object, false) ∧
      c.get k now = some it.Object) := by
  have hnx : isExpired it now = false ↔ ¬(it.Expiration > 0 ∧ now > it.Expiration) := by
    simp [isExpired]
  refine ⟨?_, ?_, rfl, ?_, ?_⟩
  · by_cases he : it.Expiration > 0 ∧ now > it.Expiration <;>
      simp [Cache.Get, h, isExpired, he]
  · simp [Cache.GetStale, h]
  · by_cases he : it.Expiration > 0 ∧ now > it.Expiration <;>
      simp [Cache.get, h, isExpired, he]
  · intro hb
    have he : isExpired it now = false := by
      rw [hnx]
      omega
    simp [Cache.Get, Cache.GetStale, Cache.get, h, he]

/-- Witness for C6 at a concrete cache, key and instant. -/
theorem C6_strict_expiration_witness :
    ((Cache.mk (-1) [(0, Item.mk 3 50)] false : Cache Nat Nat).Get 0 50 = none
        ↔ ((50 : Int) > 0 ∧ (50 : Int) > 50)) ∧
    ((Cache.mk (-1) [(0, Item.mk 3 50)] false : Cache Nat Nat).GetStale 0 50
        = some (3, isExpired (Item.mk 3 50) 50)) ∧
    (isExpired (Item.mk (3 : Nat) 50) 50 = decide ((50 : Int) > 0 ∧ (50 : Int) > 50)) ∧
    ((Cache.mk (-1) [(0, Item.mk 3 50)] false : Cache Nat Nat).get 0 50 = none
        ↔ ((50 : Int) > 0 ∧ (50 : Int) > 50)) ∧
    ((50 : Int) = 50 →
      (Cache.mk (-1) [(0, Item.mk 3 50)] false : Cache Nat Nat).Get 0 50 = some 3 ∧
      (Cache.mk (-1) [(0, Item.mk 3 50)] false : Cache Nat Nat).GetStale 0 50 = some (3, false) ∧
      (Cache.mk (-1) [(0, Item.mk 3 50)] false : Cache Nat Nat).get 0 50 = some 3) :=
  C6_strict_expiration (Cache.mk (-1) [(0, Item.mk 3 50)] false) 0 (Item.mk 3 50) 50 (by decide)

/-- C7: at a fixed state and instant, Add succeeds exactly when Replace fails:
Add succeeds precisely when the key is absent or expired, Replace precisely
when it is present and unexpired. -/
theorem C7_add_replace_complementary (c : Cache K V) (k : K) (v w : V)
    (d e now : Int) :
    ((c.AddWithExpire k v d now).2.1 = !(c.ReplaceWithExpire k w e now).2.1) ∧
    ((c.AddWithExpire k v d now).2.1 = true ↔ c.get k now = none) ∧
    ((c.ReplaceWithExpire k w e now).2.1 = true
        ↔ ∃ it, lookupItem c.items k = some it ∧ isExpired it now = false) ∧
    (c.get k now = none
        ↔ (lookupItem c.items k = none ∨
            ∀ it, lookupItem c.items k = some it → isExpired it now = true)) := by
  cases hl : lookupItem c.items k with
  | none =>
    simp [Cache.AddWithExpire, Cache.ReplaceWithExpire, Cache.get, hl]
  | some it =>
    by_cases he : isExpired it now <;>
      simp [Cache.AddWithExpire, Cache.ReplaceWithExpire, Cache.get, hl, he]

/-- C8: no execution of set, rename or reset (nor of touch, add, replace or
modify) ever invokes the eviction callback: each of these operations produces
an empty list of callback invocations. -/
theorem C8_no_eviction_on_overwrite_rename_reset (c : Cache K V)
    (k src dst : K) (v w : V) (d e now : Int) (f : V → V) :
    ((c.SetWithExpire k v d now).2 = []) ∧
    ((c.Rename src dst now).2.2 = []) ∧
    (c.Reset.2 = []) ∧
    ((c.TouchWithExpire k d now).2.2 = []) ∧
    ((c.AddWithExpire k v d now).2.2 = []) ∧
    ((c.ReplaceWithExpire k w e now).2.2 = []) ∧
    ((c.Modify k f now).2.2 = []) := by
  refine ⟨rfl, ?_, rfl, ?_, ?_, ?_, ?_⟩
  · unfold Cache.Rename
    cases lookupItem c.items src with
    | none => rfl
    | some it => by_cases he : isExpired it now <;> simp [he]
  · unfold Cache.TouchWithExpire
    cases lookupItem c.items k <;> rfl
  · unfold Cache.AddWithExpire
    cases c.get k now <;> rfl
  · unfold Cache.ReplaceWithExpire
    cases c.get k now <;> rfl
  · unfold Cache.Modify
    cases lookupItem c.items k with
    | none => rfl
    | some it => by_cases he : isExpired it now <;> simp [he]

/-- C9: Modify of a present, unexpired entry replaces only the value with
`f(old)`, keeps the expiration and every other key unchanged; on an absent or
expired key the map is unchanged, nothing is applied, and the result does not
depend on the function at all. -/
theorem C9_modify_frame (c : Cache K V) (k : K) (f g : V → V) (now : Int) :
    (∀ it, lookupItem c.items k = some it → isExpired it now = false →
      c.Modify k f now
        = ({ c with items := insertItem c.items k (Item.mk (f it.Object) it.Expiration) },
            some (f it.Object), []) ∧
      (∀ k', k' ≠ k →
        lookupItem (c.Modify k f now).1.items k' = lookupItem c.items k')) ∧
    ((∀ it, lookupItem c.items k = some it → isExpired it now = true) →
      c.Modify k f now = (c, none, []) ∧ c.Modify k f now = c.Modify k g now) := by
  constructor
  · intro it hl he
    constructor
    · simp [Cache.Modify, hl, he]
    · intro k' hk
      rw [show (c.Modify k f now).1.items
            = insertItem c.items k (Item.mk (f it.Object) it.Expiration) by
          simp [Cache.Modify, hl, he]]
      exact lookup_insert_ne c.items _ hk
  · intro hexp
    cases hl : lookupItem c.items k with
    | none => simp [Cache.Modify, hl]
    | some it => simp [Cache.Modify, hl, hexp it hl]

/-- Witness for C9: incrementing a live entry rewrites exactly that value. -/
theorem C9_modify_frame_witness :
    (Cache.mk (-1) [(0, Item.mk (4 : Nat) 0)] false : Cache Nat Nat).Modify 0 (fun v => v + 1) 5
      = (Cache.mk (-1) [(0, Item.mk 5 0)] false, some 5, []) :=
  ((C9_modify_frame (Cache.mk (-1) [(0, Item.mk 4 0)] false) 0 (fun v => v + 1)
      (fun v => v + 2) 5).1 (Item.mk 4 0) (by decide) (by decide)).1

/-- C1 fails on the code: touching a present-but-expired entry does not fail —
it resets the expiry and returns the value with found=true, modifying the map. -/
theorem C1_counterexample :
    isExpired (Item.mk (7 : Nat) 10) 20 = true ∧
    ((Cache.mk (-1) [(0, Item.mk (7 : Nat) 10)] false : Cache Nat Nat).TouchWithExpire 0 30 20).2.1
      = some 7 ∧
    ((Cache.mk (-1) [(0, Item.mk (7 : Nat) 10)] false : Cache Nat Nat).TouchWithExpire 0 30 20).1
      ≠ Cache.mk (-1) [(0, Item.mk 7 10)] false := by decide

/-- C1 amended: TouchWithExpire resets only the expiration (to `now` plus the
resolved duration) of any entry present in the map — expired or not — leaving
its value and all other keys unchanged; it returns found=false without
modifying the map exactly when the key is absent. -/
theorem C1_amended_touch (c : Cache K V) (k : K) (d now : Int) :
    (lookupItem c.items k = none → c.TouchWithExpire k d now = (c, none, [])) ∧
    (∀ it, lookupItem c.items k = some it →
      c.TouchWithExpire k d now
        = ({ c with items := insertItem c.items k (Item.mk it.Object (now + (if d = DefaultExpiration then c.defaultExpiration else d))) }, some it.Object, []) ∧
      (∀ k', k' ≠ k →
        lookupItem (c.TouchWithExpire k d now).1.items k' = lookupItem c.items k')) := by
  constructor
  · intro h
    simp [Cache.TouchWithExpire, h]
  · intro it h
    constructor
    · simp [Cache.TouchWithExpire, h]
    · intro k' hk
      rw [show (c.TouchWithExpire k d now).1.items
            = insertItem c.items k (Item.mk it.Object (now + (if d = DefaultExpiration then c.defaultExpiration else d))) by
          simp [Cache.TouchWithExpire, h]]
      exact lookup_insert_ne c.items _ hk

/-- Witness for C1 (amended): touching a live entry rewrites exactly its expiry. -/
theorem C1_amended_touch_witness :
    (Cache.mk (-1) [(0, Item.mk (7 : Nat) 10)] false : Cache Nat Nat).TouchWithExpire 0 30 20
      = (Cache.mk (-1) [(0, Item.mk 7 50)] false, some 7, []) :=
  ((C1_amended_touch (Cache.mk (-1) [(0, Item.mk 7 10)] false) 0 30 20).2
    (Item.mk 7 10) (by decide)).1

/-- C2 fails on the code for touch: with a "never" TTL, SetWithExpire stores
the no-expiration marker 0 (and the entry is found much later), but
TouchWithExpire computes `now + (-1)` — the entry is immediately reported
expired by every later Get, contradicting the claim and TouchWithExpire's own
doc comment. -/
theorem C2_touch_never_bug :
    ((newCache (-1) [(0, Item.mk (42 : Nat) 0)] : Cache Nat Nat).SetWithExpire 1 9 NoExpiration 100).1.items
      = [(1, Item.mk 9 0), (0, Item.mk 42 0)] ∧
    ((newCache (-1) [(0, Item.mk (42 : Nat) 0)] : Cache Nat Nat).SetWithExpire 1 9 NoExpiration 100).1.Get 1 1000000000000
      = some 9 ∧
    ((newCache (-1) [(0, Item.mk (42 : Nat) 0)] : Cache Nat Nat).TouchWithExpire 0 NoExpiration 100).1.items
      = [(0, Item.mk 42 99)] ∧
    ((newCache (-1) [(0, Item.mk (42 : Nat) 0)] : Cache Nat Nat).TouchWithExpire 0 NoExpiration 100).1.Get 0 100
      = none ∧
    ((newCache (-1) [(0, Item.mk (42 : Nat) 0)] : Cache Nat Nat).TouchWithExpire 0 NoExpiration 100).1.Get 0 101
      = none := by decide

/-- C3 fails on the code: on a present-but-expired entry Pop leaves the map
untouched and fires nothing, while Get-then-Delete removes the entry and
fires the eviction callback. -/
theorem C3_counterexample :
    (Cache.mk (-1) [(0, Item.mk (5 : Nat) 10)] true : Cache Nat Nat).Pop 0 20
      ≠ GetThenDelete (Cache.mk (-1) [(0, Item.mk 5 10)] true) 0 20 ∧
    ((Cache.mk (-1) [(0, Item.mk (5 : Nat) 10)] true : Cache Nat Nat).Pop 0 20).1.items
      = [(0, Item.mk 5 10)] ∧
    (GetThenDelete (Cache.mk (-1) [(0, Item.mk (5 : Nat) 10)] true) 0 20).1.items = [] ∧
    ((Cache.mk (-1) [(0, Item.mk (5 : Nat) 10)] true : Cache Nat Nat).Pop 0 20).2.2 = [] ∧
    (GetThenDelete (Cache.mk (-1) [(0, Item.mk (5 : Nat) 10)] true) 0 20).2.2 = [(0, 5)] := by
  decide

theorem delete_absent (c : Cache K V) (k : K) (h : lookupItem c.items k = none) :
    c.delete k = (c, none) := by
  rcases c with ⟨de, its, oe⟩
  have her : eraseItem its k = its := erase_of_lookup_none its k h
  cases oe <;> simp [Cache.delete, h, her]

/-- C3 amended: Pop(k) is observationally equivalent to Get(k) followed by
Delete(k) — same value, same final state, same callback firing — whenever k
is absent or its entry is unexpired at the call instant. -/
theorem C3_amended_pop_refines (c : Cache K V) (k : K) (now : Int)
    (h : lookupItem c.items k = none ∨
         ∃ it, lookupItem c.items k = some it ∧ isExpired it now = false) :
    c.Pop k now = GetThenDelete c k now := by
  rcases h with h | ⟨it, h, he⟩
  · simp [Cache.Pop, GetThenDelete, Cache.Get, Cache.Delete, h, delete_absent c k h, evList]
  · simp [Cache.Pop, GetThenDelete, Cache.Get, Cache.Delete, h, he]

/-- Witness for C3 (amended) on a live entry. -/
theorem C3_amended_pop_refines_witness :
    (Cache.mk (-1) [(0, Item.mk (5 : Nat) 100)] true : Cache Nat Nat).Pop 0 20
      = GetThenDelete (Cache.mk (-1) [(0, Item.mk 5 100)] true) 0 20 :=
  C3_amended_pop_refines (Cache.mk (-1) [(0, Item.mk 5 100)] true) 0 20
    (Or.inr ⟨Item.mk 5 100, by decide, by decide⟩)

/-- C4 fails on the code: SetWithExpire with the non-sentinel non-positive
duration -2 stores the no-expiration marker 0, and a much later Get still
finds the entry instead of reporting it gone. -/
theorem C4_counterexample :
    ((newCache (-1) ([] : List (Nat × Item Nat))).SetWithExpire 0 7 (-2) 10).1.items
      = [(0, Item.mk 7 0)] ∧
    ((newCache (-1) ([] : List (Nat × Item Nat))).SetWithExpire 0 7 (-2) 10).1.Get 0 1000000
      = some 7 := by decide

/-- C4 amended: a negative non-sentinel duration is accepted, but since only a
strictly positive resolved duration computes an absolute expiry, the entry is
stored with the no-expiration marker 0 and never expires: every subsequent
read finds it. -/
theorem C4_amended_negative_ttl_never_expires (c : Cache K V) (k : K) (v : V)
    (d now now' : Int) (h1 : d < 0) (_h2 : d ≠ NoExpiration) :
    lookupItem ((c.SetWithExpire k v d now).1).items k = some (Item.mk v 0) ∧
    (c.SetWithExpire k v d now).1.Get k now' = some v := by
  have hd0 : d ≠ DefaultExpiration := by
    simp only [DefaultExpiration]
    omega
  have hdn : ¬(d > 0) := by omega
  have hset : (c.SetWithExpire k v d now).1
      = { c with items := insertItem c.items k (Item.mk v 0) } := by
    simp [Cache.SetWithExpire, Cache.set, hd0, hdn]
  constructor
  · rw [hset]
    exact lookup_insert_self c.items k (Item.mk v 0)
  · rw [hset]
    simp [Cache.Get, lookup_insert_self, isExpired]

/-- Witness for C4 (amended) at duration -2. -/
theorem C4_amended_negative_ttl_witness :
    lookupItem (((newCache (-1) ([] : List (Nat × Item Nat))).SetWithExpire 0 7 (-2) 10).1).items 0
      = some (Item.mk 7 0) ∧
    ((newCache (-1) ([] : List (Nat × Item Nat))).SetWithExpire 0 7 (-2) 10).1.Get 0 99
      = some 7 :=
  C4_amended_negative_ttl_never_expires (newCache (-1) []) 0 7 (-2) 10 99
    (by decide) (by decide)

/-- C5 fails on the code: after a leader's populate function has returned, the
key is in the gate's `done` set (not idle), and an immediately following
populate call for the same key does not run its function. -/
theorem C5_counterexample :
    (Once.Do (Once.mk ([] : List Nat)) 0 (fun s : Nat => s + 1) 0).2.2 = true ∧
    (Once.Do (Once.mk ([] : List Nat)) 0 (fun s : Nat => s + 1) 0).2.1 = 1 ∧
    0 ∈ (Once.Do (Once.mk ([] : List Nat)) 0 (fun s : Nat => s + 1) 0).1.done ∧
    (Once.Do (Once.Do (Once.mk ([] : List Nat)) 0 (fun s : Nat => s + 1) 0).1 0
        (fun s : Nat => s + 1) 1).2.2 = false ∧
    (Once.Do (Once.Do (Once.mk ([] : List Nat)) 0 (fun s : Nat => s + 1) 0).1 0
        (fun s : Nat => s + 1) 1).2.1 = 1 := by decide

/-- C5 amended: running `Do` for a fresh key runs its function exactly once and
adds the key to the `done` set when the function returns; while the key stays
in the set a later `Do` for it returns without running its function; only
`Forget` removes the key, after which a later `Do` runs its function again. -/
theorem C5_amended_once_gate {σ : Type} (o : Once K) (k : K) (f g : σ → σ)
    (s t : σ) (h : k ∉ o.done) :
    Once.Do o k f s = (Once.mk (k :: o.done), f s, true) ∧
    (Once.Do (Once.Do o k f s).1 k g t).2.2 = false ∧
    k ∉ ((Once.Do o k f s).1.Forget k).done ∧
    (Once.Do ((Once.Do o k f s).1.Forget k) k g t).2.2 = true := by
  have h1 : Once.Do o k f s = (Once.mk (k :: o.done), f s, true) := by
    simp [Once.Do, h]
  have h2 : k ∈ (Once.Do o k f s).1.done := by
    rw [h1]
    exact List.mem_cons_self k o.done
  have h3 : k ∉ ((Once.Do o k f s).1.Forget k).done := by
    simp [Once.Forget]
  refine ⟨h1, ?_, h3, ?_⟩
  · rw [h1]
    simp [Once.Do]
  · rw [h1] at h3 ⊢
    simp [Once.Do, h3]

/-- Witness for C5 (amended) on a fresh key. -/
theorem C5_amended_once_gate_witness :
    Once.Do (Once.mk ([] : List Nat)) 0 (fun s : Nat => s + 1) 0
      = (Once.mk [0], 1, true) ∧
    (Once.Do (Once.Do (Once.mk ([] : List Nat)) 0 (fun s : Nat => s + 1) 0).1 0
        (fun s : Nat => s + 2) 5).2.2 = false ∧
    0 ∉ ((Once.Do (Once.mk ([] : List Nat)) 0 (fun s : Nat => s + 1) 0).1.Forget 0).done ∧
    (Once.Do ((Once.Do (Once.mk ([] : List Nat)) 0 (fun s : Nat => s + 1) 0).1.Forget 0) 0
        (fun s : Nat => s + 2) 5).2.2 = true :=
  C5_amended_once_gate (Once.mk []) 0 (fun s => s + 1) (fun s => s + 2) 0 5 (by decide)

/-- C10: with no callback registered, the internal delete helper always reports
evicted=false (so every callback-invocation branch is unreachable) while still
removing the entry, and Delete, Pop, DeleteExpired, DeleteAll and DeleteFunc
produce no callback invocations while still removing. -/
theorem C10_nil_callback (c : Cache K V) (k : K) (now : Int)
    (f : K → Item V → Bool × Bool) (h : c.onEvicted = false) :
    ((c.delete k).2 = none) ∧
    (lookupItem (c.delete k).1.items k = none) ∧
    ((c.Delete k).2 = [] ∧ lookupItem (c.Delete k).1.items k = none) ∧
    ((c.Pop k now).2.2 = []) ∧
    ((c.DeleteExpired now).2 = []) ∧
    ((c.DeleteAll).2.2 = [] ∧ (c.DeleteAll).1.items = []) ∧
    ((c.DeleteFunc f).2.2 = []) := by
  have hd := delete_of_not_onEvicted c k h
  refine ⟨?_, ?_, ⟨?_, ?_⟩, ?_, ?_, ⟨?_, rfl⟩, ?_⟩
  · rw [hd]
  · rw [hd]
    exact lookup_erase_self c.items k
  · simp [Cache.Delete, hd, evList]
  · simp only [Cache.Delete, hd]
    exact lookup_erase_self c.items k
  · cases hl : lookupItem c.items k with
    | none => simp [Cache.Pop, hl]
    | some it =>
      by_cases he : isExpired it now
      · simp [Cache.Pop, hl, he]
      · simp [Cache.Pop, hl, he, hd, evList]
  · exact (deleteExpired_foldl_no_evict now c.items c [] h).1
  · simp [Cache.DeleteAll, h]
  · simp [Cache.DeleteFunc, h]

/-- Witness for C10: deleting with a nil callback removes the entry and fires
nothing. -/
theorem C10_nil_callback_witness :
    ((Cache.mk (-1) [(0, Item.mk (3 : Nat) 5)] false : Cache Nat Nat).Delete 0).2 = [] ∧
    lookupItem ((Cache.mk (-1) [(0, Item.mk (3 : Nat) 5)] false : Cache Nat Nat).Delete 0).1.items 0
      = none :=
  (C10_nil_callback (Cache.mk (-1) [(0, Item.mk 3 5)] false) 0 7
    (fun _ _ => (true, false)) (by decide)).2.2.1

/-- Witness for C7 at a concrete cache and instant. -/
theorem C7_add_replace_complementary_witness :
    ((Cache.mk (-1) [(0, Item.mk (3 : Nat) 50)] false : Cache Nat Nat).AddWithExpire 0 1 5 10).2.1
      = !((Cache.mk (-1) [(0, Item.mk (3 : Nat) 50)] false : Cache Nat Nat).ReplaceWithExpire 0 2 6 10).2.1 :=
  (C7_add_replace_complementary (Cache.mk (-1) [(0, Item.mk 3 50)] false) 0 1 2 5 6 10).1

/-- Witness for C8 at a concrete cache and instant. -/
theorem C8_no_eviction_witness :
    ((Cache.mk (-1) [(0, Item.mk (3 : Nat) 50)] false : Cache Nat Nat).SetWithExpire 0 1 5 10).2 = [] ∧
    ((Cache.mk (-1) [(0, Item.mk (3 : Nat) 50)] false : Cache Nat Nat).Rename 0 1 10).2.2 = [] ∧
    (Cache.mk (-1) [(0, Item.mk (3 : Nat) 50)] false : Cache Nat Nat).Reset.2 = [] :=
  let h := C8_no_eviction_on_overwrite_rename_reset
    (Cache.mk (-1) [(0, Item.mk 3 50)] false) 0 0 1 1 2 5 6 10 (fun v => v)
  ⟨h.1, h.2.1, h.2.2.1⟩
